import Mathlib

/-!
Verification of the `deepworx/go-utils` utility packages against their
natural-language specification.  Each Go package that the claims touch is
shallowly embedded as executable Lean definitions translated from the Go
source; theorems about those definitions settle the claims.
-/

set_option maxHeartbeats 1000000

namespace Grpchealth

/-- Outcome of one call to a `HealthChecker.Check`: it either returns a
boolean or panics (with some panic value, abstracted away). -/
inductive CheckOutcome where
  | returns (b : Bool)
  | panics
deriving DecidableEq

/-- Embedding of `safeCheck` (grpchealth.go): executes a health check with
panic recovery — a recovered panic yields `healthy = false`. -/
def safeCheck : CheckOutcome → Bool
  | .returns b => b
  | .panics => false

/-- Aggregator state relevant to the claims: the `serving` flag guarded by
`a.mu` in the Go code. -/
structure AggState where
  serving : Bool
deriving DecidableEq

/-- Embedding of `NewAggregator`: the aggregator starts in the NotServing
state (`serving: false`). -/
def NewAggregator : AggState := ⟨false⟩

/-- Embedding of `updateStatus`: stores the new aggregate status,
unconditionally overwriting the previous one. -/
def updateStatus (_s : AggState) (serving : Bool) : AggState := ⟨serving⟩

/-- Embedding of `runChecks`: with no registered checkers the status is set
to serving; otherwise every checker is probed (through `safeCheck`), the
results are collected, and the status is set to the conjunction of all
results.  The parallel fan-out of the Go code is order-insensitive (the
aggregate is the all-conjunction over the results map), so a sequential
map over the registration list is a faithful embedding.  Returns the new
state together with the collected per-checker results. -/
def runChecks (s : AggState) (services : List (String × CheckOutcome)) :
    AggState × List (String × Bool) :=
  if services.isEmpty then
    (updateStatus s true, [])
  else
    let results := services.map (fun p => (p.1, safeCheck p.2))
    let allHealthy := results.all (fun r => r.2)
    (updateStatus s allHealthy, results)

/-- Claim C1: with at least one registered checker, the aggregate status
after a cycle is serving iff every checker's check returned true; a
panicking checker counts as not healthy and its panic is absorbed by
`safeCheck` (the cycle is a total function: every checker's result is
still collected and the cycle completes). -/
theorem c1_aggregate_serving_iff_all_healthy
    (s : AggState) (svc : List (String × CheckOutcome)) (h : svc ≠ []) :
    ((runChecks s svc).1.serving = true ↔ ∀ p ∈ svc, safeCheck p.2 = true) ∧
    (runChecks s svc).2 = svc.map (fun p => (p.1, safeCheck p.2)) ∧
    safeCheck .panics = false := by
  have hne : svc.isEmpty = false := by
    cases svc with
    | nil => exact absurd rfl h
    | cons a l => rfl
  refine ⟨?_, ?_, rfl⟩
  · simp only [runChecks, hne, Bool.false_eq_true, if_false, updateStatus,
      List.all_eq_true, List.mem_map]
    constructor
    · intro hall p hp
      exact hall (p.1, safeCheck p.2) ⟨p, hp, rfl⟩
    · rintro hall r ⟨p, hp, rfl⟩
      exact hall p hp
  · simp [runChecks, hne]

/-- Witness for C1 at a concrete cycle: one healthy checker and one
panicking checker. -/
theorem c1_witness :
    ((runChecks ⟨false⟩ [("db", .returns true), ("q", .panics)]).1.serving = true ↔
      ∀ p ∈ [("db", CheckOutcome.returns true), ("q", CheckOutcome.panics)],
        safeCheck p.2 = true) ∧
    (runChecks ⟨false⟩ [("db", .returns true), ("q", .panics)]).2 =
      [("db", CheckOutcome.returns true), ("q", CheckOutcome.panics)].map
        (fun p => (p.1, safeCheck p.2)) ∧
    safeCheck .panics = false :=
  c1_aggregate_serving_iff_all_healthy ⟨false⟩
    [("db", .returns true), ("q", .panics)] (by decide)

/-- Counterexample to claim C6 as stated: the aggregator starts not
serving, and a single all-healthy cycle flips the aggregate status to
serving — the status does flip on the observation of a single check cycle
whose result differs from the current status. -/
theorem c6_counterexample :
    NewAggregator.serving = false ∧
    (runChecks NewAggregator [("db", .returns true)]).1.serving = true := by
  exact ⟨rfl, rfl⟩

/-- Claim C6 (amended): there is no debouncing — the status after a check
cycle is fully determined by that cycle's results and is independent of
the previous status, so the aggregate status flips on the first cycle
whose aggregate result differs from the current status. -/
theorem c6_no_debounce_single_cycle_determines_status
    (s t : AggState) (svc : List (String × CheckOutcome)) :
    (runChecks s svc).1.serving = (runChecks t svc).1.serving := by
  unfold runChecks updateStatus
  by_cases h : svc.isEmpty <;> simp [h]

/-- Claim C9: an aggregator with no registered checkers starts not
serving, and its first check cycle sets the aggregate status to serving
despite probing nothing. -/
theorem c9_zero_checkers_serving :
    NewAggregator.serving = false ∧
    (runChecks NewAggregator []).1.serving = true := by
  exact ⟨rfl, rfl⟩

end Grpchealth

namespace Postgres

/-- Outcome of the callback passed to `WithTx` / `PgUnitOfWork.Execute`:
it returns nil, returns an error (message), or panics (with a value). -/
inductive FnOutcome where
  | ok
  | fails (e : String)
  | panics (v : String)
deriving DecidableEq

/-- Behavior of the underlying transaction operations: whether
`pool.Begin`, `tx.Rollback` and `tx.Commit` return an error. -/
structure TxBehavior where
  beginErr : Option String
  rollbackErr : Option String
  commitErr : Option String
deriving DecidableEq

/-- What happened to the transaction during one `WithTx` call. -/
structure TxTrace where
  rollbackCalled : Bool
  commitCalled : Bool
  committed : Bool
deriving DecidableEq

/-- Result of `WithTx`: either it returns (with an optional error) or it
re-raises the callback's panic value; both carry the transaction trace. -/
inductive WithTxResult where
  | ret (e : Option String) (t : TxTrace)
  | panicked (v : String) (t : TxTrace)
deriving DecidableEq

/-- The returned Go error of a `WithTxResult` (none on the panic path,
where nothing is returned). -/
def WithTxResult.retErr : WithTxResult → Option String
  | .ret e _ => e
  | .panicked _ _ => none

/-- The transaction trace of a `WithTxResult`. -/
def WithTxResult.txTrace : WithTxResult → TxTrace
  | .ret _ t => t
  | .panicked _ t => t

/-- Embedding of `WithTx` (metrics.go): begin; on panic of `fn` roll back
(ignoring the rollback error) and re-panic; on error of `fn` roll back and
return the error — unless the rollback itself fails, in which case a
combined error naming both is returned; on success commit and return the
commit error, if any. -/
def WithTx (tx : TxBehavior) (fn : FnOutcome) : WithTxResult :=
  match tx.beginErr with
  | some e => .ret (some ("begin transaction: " ++ e)) ⟨false, false, false⟩
  | none =>
    match fn with
    | .panics v => .panicked v ⟨true, false, false⟩
    | .fails e =>
      match tx.rollbackErr with
      | some rb =>
        .ret (some ("rollback transaction: " ++ rb ++ " (original: " ++ e ++ ")"))
          ⟨true, false, false⟩
      | none => .ret (some e) ⟨true, false, false⟩
    | .ok =>
      match tx.commitErr with
      | some c => .ret (some ("commit transaction: " ++ c)) ⟨false, true, false⟩
      | none => .ret none ⟨false, true, true⟩

/-- Embedding of `PgUnitOfWork.Execute` (uow.go): delegates to `WithTx`,
wrapping the callback (the `pgTransaction` wrapper does not change the
callback's outcome). -/
def PgUnitOfWork.Execute (tx : TxBehavior) (fn : FnOutcome) : WithTxResult :=
  WithTx tx fn

/-- Counterexample to claim C2 as stated: when the callback fails and the
rollback itself also fails, `WithTx` returns an error combining both, not
the callback's error. -/
theorem c2_counterexample :
    (PgUnitOfWork.Execute ⟨none, some "conn closed", none⟩ (.fails "boom")).retErr =
      some "rollback transaction: conn closed (original: boom)" ∧
    (PgUnitOfWork.Execute ⟨none, some "conn closed", none⟩ (.fails "boom")).retErr ≠
      some "boom" := by
  constructor
  · rfl
  · decide

/-- Claim C2 (amended): provided Begin succeeds — if the callback returns
nil, Commit is invoked (and the transaction is committed and nil returned
whenever Commit succeeds); if the callback returns an error, the
transaction is rolled back, the commit path is not taken, and that error
is returned when the rollback succeeds (when the rollback also fails, an
error combining the rollback failure with the original error is
returned); if the callback panics, the transaction is rolled back and the
same panic value is re-raised; so a transaction is never committed after
the callback fails or panics. -/
theorem c2_withtx_commit_rollback
    (tx : TxBehavior) (fn : FnOutcome) (hb : tx.beginErr = none) :
    (fn = .ok →
      (PgUnitOfWork.Execute tx fn).txTrace.commitCalled = true ∧
      (PgUnitOfWork.Execute tx fn).txTrace.rollbackCalled = false ∧
      (tx.commitErr = none →
        PgUnitOfWork.Execute tx fn = .ret none ⟨false, true, true⟩)) ∧
    (∀ e, fn = .fails e →
      (PgUnitOfWork.Execute tx fn).txTrace.rollbackCalled = true ∧
      (tx.rollbackErr = none →
        PgUnitOfWork.Execute tx fn = .ret (some e) ⟨true, false, false⟩) ∧
      (∀ rb, tx.rollbackErr = some rb →
        (PgUnitOfWork.Execute tx fn).retErr =
          some ("rollback transaction: " ++ rb ++ " (original: " ++ e ++ ")"))) ∧
    (∀ v, fn = .panics v →
      PgUnitOfWork.Execute tx fn = .panicked v ⟨true, false, false⟩) ∧
    (fn ≠ .ok →
      (PgUnitOfWork.Execute tx fn).txTrace.commitCalled = false ∧
      (PgUnitOfWork.Execute tx fn).txTrace.committed = false) := by
  obtain ⟨b, r, c⟩ := tx
  simp only at hb
  subst hb
  refine ⟨?_, ?_, ?_, ?_⟩
  · rintro rfl
    cases c <;> simp [PgUnitOfWork.Execute, WithTx, WithTxResult.txTrace]
  · rintro e rfl
    refine ⟨?_, ?_, ?_⟩
    · cases r <;> simp [PgUnitOfWork.Execute, WithTx, WithTxResult.txTrace]
    · rintro rfl
      simp [PgUnitOfWork.Execute, WithTx]
    · rintro rb rfl
      simp [PgUnitOfWork.Execute, WithTx, WithTxResult.retErr]
  · rintro v rfl
    simp [PgUnitOfWork.Execute, WithTx]
  · intro hne
    cases fn with
    | ok => exact absurd rfl hne
    | fails e =>
      cases r <;> simp [PgUnitOfWork.Execute, WithTx, WithTxResult.txTrace]
    | panics v =>
      simp [PgUnitOfWork.Execute, WithTx, WithTxResult.txTrace]

/-- Witness for C2 (amended) at a concrete input: callback fails with
"boom" on a transaction whose operations all succeed — the transaction is
rolled back, not committed, and the callback's error is returned. -/
theorem c2_witness :
    PgUnitOfWork.Execute ⟨none, none, none⟩ (.fails "boom") =
      .ret (some "boom") ⟨true, false, false⟩ ∧
    (PgUnitOfWork.Execute ⟨none, none, none⟩ (.fails "boom")).txTrace.committed = false := by
  have h := c2_withtx_commit_rollback ⟨none, none, none⟩ (.fails "boom") rfl
  exact ⟨((h.2.1 "boom" rfl).2.1 rfl), (h.2.2.2 (by decide)).2⟩

end Postgres

namespace ShutdownM

/-- Embedding of `errors.Join` as used by `Shutdown`: nil when the
collected error list is empty, otherwise the joined list. -/
def errorsJoin (errs : List String) : Option (List String) :=
  if errs.isEmpty then none else some errs

/-- Result of one `Shutdown` call: the new handler list (always cleared),
the sequence of handler invocations with the context each received, and
the combined error. -/
structure ShutdownOutcome (H : Type) (Ctx : Type) where
  newHandlers : List H
  invoked : List (H × Ctx)
  result : Option (List String)

/-- Embedding of `Shutdown` (shutdown.go): the loop runs over the handler
list from the last index down to 0 (i.e. over the reversed list), calls
each handler with the provided context, collects the non-nil errors in
that order, clears the handler list, and returns the join of the
collected errors.  `run h ctx` is the error returned by handler `h` on
context `ctx`. -/
def Shutdown {H Ctx : Type} (run : H → Ctx → Option String) (ctx : Ctx)
    (handlers : List H) : ShutdownOutcome H Ctx :=
  let order := handlers.reverse
  { newHandlers := []
    invoked := order.map (fun h => (h, ctx))
    result := errorsJoin (order.filterMap (fun h => run h ctx)) }

/-- Claim C10: `Shutdown` invokes the handlers in LIFO order, each with
the provided context; every handler is invoked regardless of earlier
failures; the result is nil exactly when every handler succeeded; the
handler list is cleared, so an immediate second `Shutdown` invokes no
handlers and returns nil. -/
theorem c10_shutdown_lifo_join_clear
    {H Ctx : Type} (run : H → Ctx → Option String) (ctx : Ctx)
    (handlers : List H) :
    (Shutdown run ctx handlers).invoked =
      handlers.reverse.map (fun h => (h, ctx)) ∧
    (Shutdown run ctx handlers).invoked.length = handlers.length ∧
    ((Shutdown run ctx handlers).result = none ↔
      handlers.all (fun h => (run h ctx).isNone) = true) ∧
    (Shutdown run ctx handlers).newHandlers = [] ∧
    (Shutdown run ctx (Shutdown run ctx handlers).newHandlers).invoked = [] ∧
    (Shutdown run ctx (Shutdown run ctx handlers).newHandlers).result = none := by
  refine ⟨rfl, by simp [Shutdown], ?_, rfl, rfl, rfl⟩
  have hj : ∀ l : List String, errorsJoin l = none ↔ l = [] := by
    intro l
    cases l <;> simp [errorsJoin]
  simp only [Shutdown, hj, List.filterMap_eq_nil_iff, List.mem_reverse,
    List.all_eq_true, Option.isNone_iff_eq_none]

end ShutdownM

/-- Connect RPC error codes (the subset the embedded packages mention,
plus a few others used by tests as ConnectCoder codes). -/
inductive Code where
  | canceled
  | deadlineExceeded
  | internal
  | unauthenticated
  | unavailable
  | notFound
  | invalidArgument
  | permissionDenied
deriving DecidableEq

namespace Jwtauth

/-- Go `any` values as they occur in decoded JWT claims: strings, numbers,
booleans, null, `[]any` arrays and `map[string]any` objects. -/
inductive JSONValue where
  | str (s : String)
  | num (n : Int)
  | boolean (b : Bool)
  | null
  | arr (elems : List JSONValue)
  | obj (fields : List (String × JSONValue))

/-- The descent loop of `getNestedClaim`: for each remaining path segment,
the current value must be a `map[string]any` and the segment must be one
of its keys. -/
def descend : JSONValue → List String → Option JSONValue
  | current, [] => some current
  | current, part :: rest =>
    match current with
    | .obj fields =>
      match fields.lookup part with
      | some v => descend v rest
      | none => none
    | _ => none

/-- Embedding of `getNestedClaim`: an empty path fails; otherwise the path
is split on ".", the first segment is read as a top-level claim of the
token (an association of claim names to values), and the remaining
segments are resolved by `descend`.  `strings.Split` never yields an
empty list, so the `[]` branch is unreachable. -/
def getNestedClaim (tok : List (String × JSONValue)) (path : String) :
    Option JSONValue :=
  if path = "" then none
  else
    match path.splitOn "." with
    | [] => none
    | p0 :: rest =>
      match tok.lookup p0 with
      | some current => descend current rest
      | none => none

/-- Specification-side resolution relation: `DescendsTo w segs v` holds
when starting from value `w` every segment of `segs` resolves — each
intermediate value is a map that contains the segment as a key — ending
at `v`. -/
inductive DescendsTo : JSONValue → List String → JSONValue → Prop where
  | nil (v : JSONValue) : DescendsTo v [] v
  | step {fields : List (String × JSONValue)} {part : String}
      {w v : JSONValue} {rest : List String}
      (hlook : fields.lookup part = some w) (hrest : DescendsTo w rest v) :
      DescendsTo (.obj fields) (part :: rest) v

theorem descend_eq_some_iff (cur : JSONValue) (segs : List String)
    (v : JSONValue) : descend cur segs = some v ↔ DescendsTo cur segs v := by
  induction segs generalizing cur with
  | nil =>
    simp only [descend, Option.some_inj]
    constructor
    · rintro rfl
      exact .nil cur
    · rintro h
      cases h
      rfl
  | cons part rest ih =>
    cases cur with
    | obj fields =>
      simp only [descend]
      cases hl : fields.lookup part with
      | none =>
        constructor
        · intro h
          cases h
        · intro h
          cases h with
          | step hlook _ => rw [hl] at hlook; cases hlook
      | some w =>
        rw [ih]
        constructor
        · intro h
          exact .step hl h
        · intro h
          cases h with
          | step hlook hrest =>
            rw [hl] at hlook
            cases hlook
            exact hrest
    | str s =>
      constructor
      · intro h; cases h
      · intro h; cases h
    | num n =>
      constructor
      · intro h; cases h
      · intro h; cases h
    | boolean b =>
      constructor
      · intro h; cases h
      · intro h; cases h
    | null =>
      constructor
      · intro h; cases h
      · intro h; cases h
    | arr elems =>
      constructor
      · intro h; cases h
      · intro h; cases h

/-- Claim C3: `getNestedClaim` returns a value exactly when the path is
nonempty, the first "."-segment is a top-level claim of the token, and
every later segment resolves through nested maps (failing when the path
is empty, the first segment is not a claim, a later segment is absent,
or an intermediate value is not a map); the returned value is the one
the segments resolve to. -/
theorem c3_getNestedClaim_resolution (tok : List (String × JSONValue))
    (path : String) (v : JSONValue) :
    getNestedClaim tok path = some v ↔
      (path ≠ "" ∧ ∃ p0 rest, path.splitOn "." = p0 :: rest ∧
        ∃ w, tok.lookup p0 = some w ∧ DescendsTo w rest v) := by
  by_cases hp : path = ""
  · subst hp
    simp [getNestedClaim]
  · rw [getNestedClaim, if_neg hp]
    cases hs : path.splitOn "." with
    | nil =>
      simp only [hs, ne_eq, hp, not_false_iff, true_and]
      constructor
      · intro h
        cases h
      · rintro ⟨p0, rest, hcons, _⟩
        cases hcons
    | cons p0 rest =>
      simp only [hs, ne_eq, hp, not_false_iff, true_and]
      cases hl : tok.lookup p0 with
      | none =>
        constructor
        · intro h
          cases h
        · rintro ⟨q0, qrest, hcons, w, hw, _⟩
          injection hcons with h1 h2
          subst h1
          subst h2
          rw [hl] at hw
          cases hw
      | some cur =>
        rw [descend_eq_some_iff]
        constructor
        · intro h
          exact ⟨p0, rest, rfl, cur, hl, h⟩
        · rintro ⟨q0, qrest, hcons, w, hw, hdes⟩
          injection hcons with h1 h2
          subst h1
          subst h2
          rw [hl] at hw
          cases hw
          exact hdes

/-- `ctxutil.Claims`: the application-level identity fields. -/
structure Claims where
  userID : String
  tenantID : String
  roles : List String
  permissions : List String
deriving DecidableEq

/-- The zero value of `ctxutil.Claims`. -/
def emptyClaims : Claims := ⟨"", "", [], []⟩

/-- `ClaimsMapping`: dot-notation claim paths for each identity field. -/
structure ClaimsMapping where
  userID : String
  tenantID : String
  roles : String
  permissions : String
deriving DecidableEq

/-- Embedding of `toStringSlice`: a `[]any` keeps its string elements, a
string is split into whitespace-separated fields, anything else is an
error (`none`). -/
def toStringSlice : JSONValue → Option (List String)
  | .arr items =>
    some (items.filterMap fun it =>
      match it with
      | .str s => some s
      | _ => none)
  | .str s => some ((s.split Char.isWhitespace).filter (fun t => !t.isEmpty))
  | _ => none

/-- Embedding of `extractClaims`: each configured nonempty mapping path is
resolved with `getNestedClaim`; a string value populates UserID/TenantID,
a value convertible by `toStringSlice` populates Roles/Permissions, and
failures leave the field at its zero value. -/
def extractClaims (m : ClaimsMapping) (tok : List (String × JSONValue)) :
    Claims :=
  let c0 := emptyClaims
  let c1 :=
    if m.userID = "" then c0
    else
      match getNestedClaim tok m.userID with
      | some (.str s) => { c0 with userID := s }
      | _ => c0
  let c2 :=
    if m.tenantID = "" then c1
    else
      match getNestedClaim tok m.tenantID with
      | some (.str s) => { c1 with tenantID := s }
      | _ => c1
  let c3 :=
    if m.roles = "" then c2
    else
      match getNestedClaim tok m.roles with
      | some v =>
        match toStringSlice v with
        | some rs => { c2 with roles := rs }
        | none => c2
      | none => c2
  if m.permissions = "" then c3
  else
    match getNestedClaim tok m.permissions with
    | some v =>
      match toStringSlice v with
      | some ps => { c3 with permissions := ps }
      | none => c3
    | none => c3

/-- Shape of a `jwt.Parse` failure, as discriminated by `mapJWTError`:
which sentinel checks of the jwx library match (`errors.Is` against
TokenExpiredError, TokenNotYetValidError, InvalidIssuerError,
InvalidAudienceError) and the error's message string. -/
structure JWTParseError where
  isExpired : Bool
  isNotYetValid : Bool
  isInvalidIssuer : Bool
  isInvalidAudience : Bool
  message : String
deriving DecidableEq

/-- `strings.Contains`: `pat` occurs as a contiguous substring of `s`. -/
def containsSub (s pat : String) : Bool :=
  s.toList.tails.any (fun t => pat.toList.isPrefixOf t)

/-- The typed authentication errors of the package (which sentinel error
the returned error wraps); `parseOther` is the fall-through wrap of an
unrecognized parse error. -/
inductive AuthError where
  | tokenExpired
  | tokenNotYetValid
  | invalidIssuer
  | invalidAudience
  | signatureVerification
  | jwksFetch
  | parseOther (msg : String)
deriving DecidableEq

/-- Embedding of `mapJWTError`: the jwx sentinel checks in source order,
then the message scan for "signature" or "verify", then fall-through. -/
def mapJWTError (e : JWTParseError) : AuthError :=
  if e.isExpired then .tokenExpired
  else if e.isNotYetValid then .tokenNotYetValid
  else if e.isInvalidIssuer then .invalidIssuer
  else if e.isInvalidAudience then .invalidAudience
  else if containsSub e.message "signature" || containsSub e.message "verify" then
    .signatureVerification
  else .parseOther e.message

/-- The outcome of the two fallible steps inside `Authenticate`: the JWKS
cache lookup, then `jwt.Parse` (which on success yields the token's
claims). -/
inductive AuthOutcome where
  | jwksLookupFails
  | parseFails (e : JWTParseError)
  | parsed (tok : List (String × JSONValue))

/-- Embedding of `Authenticate`: a JWKS lookup failure is wrapped in
`ErrJWKSFetch`; a parse failure goes through `mapJWTError`; a parsed
token yields `extractClaims`. -/
def Authenticate (m : ClaimsMapping) : AuthOutcome → Except AuthError Claims
  | .jwksLookupFails => .error .jwksFetch
  | .parseFails e => .error (mapJWTError e)
  | .parsed tok => .ok (extractClaims m tok)

/-- Embedding of the interceptor's `mapToConnectError`: the five
validation sentinels map to Unauthenticated, `ErrJWKSFetch` to
Unavailable, and anything else to Unauthenticated. -/
def mapToConnectError : AuthError → Code
  | .tokenExpired => .unauthenticated
  | .tokenNotYetValid => .unauthenticated
  | .invalidIssuer => .unauthenticated
  | .invalidAudience => .unauthenticated
  | .signatureVerification => .unauthenticated
  | .jwksFetch => .unavailable
  | .parseOther _ => .unauthenticated

/-- Claim C4: `Authenticate` wraps an expired token in ErrTokenExpired, a
not-yet-valid token in ErrTokenNotYetValid, a wrong issuer in
ErrInvalidIssuer, a wrong audience in ErrInvalidAudience, a
signature/verification failure in ErrSignatureVerification (each checked
in source order), and a JWKS lookup failure in ErrJWKSFetch; the
interceptor maps ErrJWKSFetch to CodeUnavailable and every other
authentication failure to CodeUnauthenticated. -/
theorem c4_error_taxonomy (m : ClaimsMapping) (e : JWTParseError)
    (a : AuthError) :
    Authenticate m .jwksLookupFails = .error .jwksFetch ∧
    (e.isExpired = true →
      Authenticate m (.parseFails e) = .error .tokenExpired) ∧
    (e.isExpired = false → e.isNotYetValid = true →
      Authenticate m (.parseFails e) = .error .tokenNotYetValid) ∧
    (e.isExpired = false → e.isNotYetValid = false →
      e.isInvalidIssuer = true →
      Authenticate m (.parseFails e) = .error .invalidIssuer) ∧
    (e.isExpired = false → e.isNotYetValid = false →
      e.isInvalidIssuer = false → e.isInvalidAudience = true →
      Authenticate m (.parseFails e) = .error .invalidAudience) ∧
    (e.isExpired = false → e.isNotYetValid = false →
      e.isInvalidIssuer = false → e.isInvalidAudience = false →
      (containsSub e.message "signature" || containsSub e.message "verify") = true →
      Authenticate m (.parseFails e) = .error .signatureVerification) ∧
    mapToConnectError .jwksFetch = .unavailable ∧
    (a ≠ .jwksFetch → mapToConnectError a = .unauthenticated) := by
  refine ⟨rfl, ?_, ?_, ?_, ?_, ?_, rfl, ?_⟩
  · intro h1
    simp [Authenticate, mapJWTError, h1]
  · intro h1 h2
    simp [Authenticate, mapJWTError, h1, h2]
  · intro h1 h2 h3
    simp [Authenticate, mapJWTError, h1, h2, h3]
  · intro h1 h2 h3 h4
    simp [Authenticate, mapJWTError, h1, h2, h3, h4]
  · intro h1 h2 h3 h4 h5
    simp [Authenticate, mapJWTError, h1, h2, h3, h4, h5]
  · intro ha
    cases a with
    | jwksFetch => exact absurd rfl ha
    | tokenExpired => rfl
    | tokenNotYetValid => rfl
    | invalidIssuer => rfl
    | invalidAudience => rfl
    | signatureVerification => rfl
    | parseOther msg => rfl

/-- Witness for C4 at concrete inputs: an expired-token parse failure is
wrapped in ErrTokenExpired and mapped to CodeUnauthenticated, and
ErrJWKSFetch is mapped to CodeUnavailable. -/
theorem c4_witness :
    Authenticate ⟨"sub", "", "", ""⟩
        (.parseFails ⟨true, false, false, false, "token expired"⟩) =
      .error .tokenExpired ∧
    mapToConnectError .jwksFetch = .unavailable ∧
    mapToConnectError .tokenExpired = .unauthenticated := by
  have h := c4_error_taxonomy ⟨"sub", "", "", ""⟩
    ⟨true, false, false, false, "token expired"⟩ .tokenExpired
  exact ⟨h.2.1 rfl, h.2.2.2.2.2.2.1, h.2.2.2.2.2.2.2 (by decide)⟩

/-- Modelled from the spec: the algorithm-inference switch of the JWT
authenticator (`InferAlgorithmFromKey` in `Config`) is missing from the
vendored source — only the package's tests reference it.  Per the spec,
the authenticator "can be configured to infer the signature-verification
algorithm from the matched JWKS key".  A matched JWKS key either carries
an explicit `alg` parameter or not. -/
structure JWKSKey where
  hasExplicitAlg : Bool
deriving DecidableEq

/-- Modelled from the spec: signature verification against the matched
JWKS key.  A key without an explicit `alg` parameter is usable only when
`inferAlgorithmFromKey` is enabled (the algorithm is then inferred from
the key material); given a usable key, the outcome is the cryptographic
signature check, delegated to the external library and abstracted as
`signatureValid`. -/
def verifyWithMatchedKey (inferAlgorithmFromKey : Bool) (key : JWKSKey)
    (signatureValid : Bool) : Bool :=
  (key.hasExplicitAlg || inferAlgorithmFromKey) && signatureValid

/-- Claim C7: for a token validly signed with a key that carries no
explicit algorithm parameter, validation succeeds when algorithm
inference is enabled and fails when it is disabled. -/
theorem c7_infer_algorithm_from_key :
    verifyWithMatchedKey true ⟨false⟩ true = true ∧
    verifyWithMatchedKey false ⟨false⟩ true = false := by
  exact ⟨rfl, rfl⟩

end Jwtauth

namespace CErrors

/-- Shape of a Go error as discriminated by `mapError`
(pkg/connectrpc/errors): whether it wraps `context.Canceled` or
`context.DeadlineExceeded` (`errors.Is`), whether it wraps a
`ConnectCoder` (`errors.As`, yielding that coder's code), whether it
wraps a `*connect.Error` (`errors.As`, yielding that error's code and its
own message), and the error's full message. -/
structure GoError where
  isCanceled : Bool
  isDeadlineExceeded : Bool
  coderCode : Option Code
  connectErr : Option (Code × String)
  message : String
deriving DecidableEq

/-- A `*connect.Error`: its code and message. -/
structure ConnectError where
  code : Code
  message : String
deriving DecidableEq

/-- Embedding of `mapError`: context errors first, then the `ConnectCoder`
interface (the original message preserved), then an already-wrapped
`*connect.Error` returned as-is, else CodeInternal with the sanitized
message "internal error". -/
def mapError (e : GoError) : ConnectError :=
  if e.isCanceled then ⟨.canceled, e.message⟩
  else if e.isDeadlineExceeded then ⟨.deadlineExceeded, e.message⟩
  else
    match e.coderCode with
    | some c => ⟨c, e.message⟩
    | none =>
      match e.connectErr with
      | some ce => ⟨ce.1, ce.2⟩
      | none => ⟨.internal, "internal error"⟩

/-- Embedding of the interceptor's `WrapUnary` body: the handler's
response and optional error; a non-nil error goes through `mapError`, a
nil error passes the response through unchanged. -/
def wrapUnary {ρ : Type} (handlerResp : ρ) (handlerErr : Option GoError) :
    ρ × Option ConnectError :=
  match handlerErr with
  | some e => (handlerResp, some (mapError e))
  | none => (handlerResp, none)

/-- Claim C5: `mapError` applies its priority order — Canceled, then
DeadlineExceeded, then ConnectCoder, then `*connect.Error` as-is, else
CodeInternal with message exactly "internal error" — preserving the
original message in the mapped cases; a nil handler error passes the
response through unchanged. -/
theorem c5_error_mapping_priority (ρ : Type) (resp : ρ) (e : GoError) :
    (e.isCanceled = true → mapError e = ⟨.canceled, e.message⟩) ∧
    (e.isCanceled = false → e.isDeadlineExceeded = true →
      mapError e = ⟨.deadlineExceeded, e.message⟩) ∧
    (e.isCanceled = false → e.isDeadlineExceeded = false →
      ∀ c, e.coderCode = some c → mapError e = ⟨c, e.message⟩) ∧
    (e.isCanceled = false → e.isDeadlineExceeded = false →
      e.coderCode = none →
      ∀ ce, e.connectErr = some ce → mapError e = ⟨ce.1, ce.2⟩) ∧
    (e.isCanceled = false → e.isDeadlineExceeded = false →
      e.coderCode = none → e.connectErr = none →
      mapError e = ⟨.internal, "internal error"⟩) ∧
    wrapUnary resp (none : Option GoError) = (resp, none) ∧
    wrapUnary resp (some e) = (resp, some (mapError e)) := by
  refine ⟨?_, ?_, ?_, ?_, ?_, rfl, rfl⟩
  · intro h1
    simp [mapError, h1]
  · intro h1 h2
    simp [mapError, h1, h2]
  · intro h1 h2 c hc
    simp [mapError, h1, h2, hc]
  · intro h1 h2 hc ce hce
    simp [mapError, h1, h2, hc, hce]
  · intro h1 h2 hc hce
    simp [mapError, h1, h2, hc, hce]

/-- Witness for C5 at concrete inputs: an unmapped error is sanitized to
CodeInternal "internal error", and a nil handler error passes the
response through. -/
theorem c5_witness :
    mapError ⟨false, false, none, none, "database connection failed"⟩ =
      ⟨.internal, "internal error"⟩ ∧
    wrapUnary (7 : Nat) (none : Option GoError) = (7, none) := by
  have h := c5_error_mapping_priority Nat 7
    ⟨false, false, none, none, "database connection failed"⟩
  exact ⟨h.2.2.2.2.1 rfl rfl rfl rfl, h.2.2.2.2.2.1⟩

end CErrors

namespace InterceptorChain

/-- `deadline.Config` (durations in nanoseconds). -/
structure DeadlineConfig where
  defaultTimeout : Nat
  maxTimeout : Nat
deriving DecidableEq

/-- `deadline.DefaultConfig`: 30s default timeout, 300s max timeout. -/
def deadlineDefaultConfig : DeadlineConfig :=
  ⟨30 * 1000000000, 300 * 1000000000⟩

/-- `requestid.Config`. -/
structure RequestIDConfig where
  headerName : String
deriving DecidableEq

/-- Modelled from the spec: `requestid.DefaultConfig` is not under the
vendored source (only the request-ID interceptor's tests are); its tests
pin the default header name "X-Request-ID". -/
def requestidDefaultConfig : RequestIDConfig := ⟨"X-Request-ID"⟩

/-- The interceptors `buildChain` appends, carrying the configuration
where one is passed. -/
inductive Interceptor where
  | recovery
  | deadline (cfg : DeadlineConfig)
  | requestid (cfg : RequestIDConfig)
  | otel
  | logging
  | jwtauth
  | validate
  | errors
deriving DecidableEq

/-- The kind of an interceptor, forgetting configuration. -/
inductive Kind where
  | recovery
  | deadline
  | requestid
  | otel
  | logging
  | jwtauth
  | validate
  | errors
deriving DecidableEq

/-- Forget an interceptor's configuration. -/
def Interceptor.kind : Interceptor → Kind
  | .recovery => .recovery
  | .deadline _ => .deadline
  | .requestid _ => .requestid
  | .otel => .otel
  | .logging => .logging
  | .jwtauth => .jwtauth
  | .validate => .validate
  | .errors => .errors

/-- `Options`: optional overrides for the deadline and request-ID
configurations. -/
structure Options where
  deadlineCfg : Option DeadlineConfig
  requestIDCfg : Option RequestIDConfig

/-- Embedding of `buildChain`: appends recovery, deadline (override or
default), requestid (override or default), otel, logging, the optional
JWT auth interceptor, validate, errors, in that order.  The only error
path of the Go function is the external `otelconnect.NewInterceptor`
constructor, abstracted as succeeding. -/
def buildChain (o : Options) (auth : Option Unit) : List Interceptor :=
  let dcfg :=
    match o.deadlineCfg with
    | some c => c
    | none => deadlineDefaultConfig
  let rcfg :=
    match o.requestIDCfg with
    | some c => c
    | none => requestidDefaultConfig
  [Interceptor.recovery, .deadline dcfg, .requestid rcfg, .otel, .logging] ++
    (match auth with
     | some _ => [Interceptor.jwtauth]
     | none => []) ++
    [Interceptor.validate, .errors]

/-- Embedding of `BuildDefault`: the chain without authentication. -/
def BuildDefault (o : Options) : Except String (List Interceptor) :=
  .ok (buildChain o none)

/-- Embedding of `BuildDefaultWithAuth`: errors on a nil authenticator,
otherwise the chain with the JWT auth interceptor. -/
def BuildDefaultWithAuth (auth : Option Unit) (o : Options) :
    Except String (List Interceptor) :=
  match auth with
  | none => .error "build interceptors: authenticator is required"
  | some a => .ok (buildChain o (some a))

/-- Claim C8: for every option set, `BuildDefault` returns exactly the 7
interceptors recovery, deadline, requestid, otel, logging, validate,
errors in that order; `BuildDefaultWithAuth` with a non-nil authenticator
returns the same chain with jwtauth inserted between logging and validate
(8 interceptors), and with a nil authenticator it returns an error. -/
theorem c8_default_chain_order (o : Options) :
    Except.map (fun l => l.map Interceptor.kind) (BuildDefault o) =
      .ok [.recovery, .deadline, .requestid, .otel, .logging, .validate,
        .errors] ∧
    Except.map (fun l => List.length l) (BuildDefault o) = .ok 7 ∧
    Except.map (fun l => l.map Interceptor.kind)
        (BuildDefaultWithAuth (some ()) o) =
      .ok [.recovery, .deadline, .requestid, .otel, .logging, .jwtauth,
        .validate, .errors] ∧
    Except.map (fun l => List.length l) (BuildDefaultWithAuth (some ()) o) =
      .ok 8 ∧
    BuildDefaultWithAuth none o =
      .error "build interceptors: authenticator is required" := by
  refine ⟨?_, ?_, ?_, ?_, rfl⟩ <;>
    simp [BuildDefault, BuildDefaultWithAuth, buildChain, Except.map,
      Interceptor.kind]

end InterceptorChain
